import Mathlib

/-!
Shallow embedding of `src/hw5.py`: an async client that fetches EUR/USD
exchange rates from the PrivatBank API for a trailing window of days.

The HTTP world is modelled by an oracle `String → HttpOutcome` mapping the
DD.MM.YYYY date string of each request to the outcome of that request.
Calendar dates are modelled by their day number (days since the Unix epoch,
as an `Int`); `dateKey` renders a day number as `strftime("%d.%m.%Y")` does,
via the standard civil-from-days conversion.  Python dicts that the program
mutates by key assignment are modelled as association lists with
overwrite-on-assignment semantics (`dictSet`), preserving insertion order
exactly as CPython does.  Numeric JSON rates are modelled as `Option Rat`
(`None`/absent vs a number).
-/

namespace Hw5

/-- One record of the `exchangeRate` array of the API payload:
`{"currency": ..., "saleRate": ..., "purchaseRate": ...}` where either rate
field may be absent (`rate.get(...)` then yields `None`). -/
structure RateRecord where
  currency : String
  saleRate : Option Rat
  purchaseRate : Option Rat
deriving DecidableEq, Repr

/-- The parsed JSON body of a 200 response: `data.get("exchangeRate", [])`
is its record list (a payload missing the field behaves as `[]`). -/
structure RawRatePayload where
  exchangeRate : List RateRecord
deriving DecidableEq, Repr

/-- The inner dict built by `_extract_rates` for one currency:
`{"sale": rate.get("saleRate"), "purchase": rate.get("purchaseRate")}` —
always exactly those two keys, each value possibly `None`. -/
structure RatePair where
  sale : Option Rat
  purchase : Option Rat
deriving DecidableEq, Repr

/-- A Python dict from currency code to rate pair, as an insertion-ordered
association list. -/
abbrev CurrencyMap := List (String × RatePair)

/-- One element of the result list: the single-key dict `{date: inner}`. -/
abbrev DailyRates := String × CurrencyMap

/-- Python dict assignment `m[k] = v`: updates the value in place when the
key exists (keeping its position, as CPython does), else appends. -/
def dictSet (m : CurrencyMap) (k : String) (v : RatePair) : CurrencyMap :=
  match m with
  | [] => [(k, v)]
  | (k0, v0) :: rest => if k0 = k then (k, v) :: rest else (k0, v0) :: dictSet rest k v

/-- Python dict read `m[k]` (as an `Option`). -/
def dictLookup (k : String) : CurrencyMap → Option RatePair
  | [] => none
  | (k0, v0) :: rest => if k0 = k then some v0 else dictLookup k rest

/-- Outcome of one HTTP GET, as seen by the `try` block of `fetch_rate`:
either a response (status, parsed JSON body, body text), or an
`aiohttp.ClientError` raised by the transport, or any other exception. -/
inductive HttpOutcome where
  | response (status : Nat) (jsonBody : RawRatePayload) (bodyText : String)
  | clientError (msg : String)
  | otherFailure (msg : String)

/-- Python exceptions relevant to this program. -/
inductive PyError where
  | valueError (msg : String)
  | clientError (msg : String)
  | otherError (msg : String)
deriving DecidableEq, Repr

/-- The `str(e)` of an exception, as used in the printed diagnostics. -/
def PyError.msg : PyError → String
  | .valueError m => m
  | .clientError m => m
  | .otherError m => m

/-- Civil-from-days (the standard Gregorian conversion `strftime` rests on):
day number (days since 1970-01-01) to `(year, month, day)`. -/
def civilFromDays (z : Int) : Int × Nat × Nat :=
  let zs : Int := z + 719468
  let era : Int := if 0 ≤ zs then zs / 146097 else (zs - 146096) / 146097
  let doe : Nat := (zs - era * 146097).toNat
  let yoe : Nat := (doe - doe / 1460 + doe / 36524 - doe / 146096) / 365
  let doy : Nat := doe - (365 * yoe + yoe / 4 - yoe / 100)
  let mp : Nat := (5 * doy + 2) / 153
  let d : Nat := doy - (153 * mp + 2) / 5 + 1
  let m : Nat := if mp < 10 then mp + 3 else mp - 9
  let y : Int := (yoe : Int) + era * 400 + (if m ≤ 2 then 1 else 0)
  (y, m, d)

/-- Days-from-civil, the inverse conversion; used only to name concrete
calendar dates (such as "today = 2024-01-15") as day numbers. -/
def daysFromCivil (y : Int) (m d : Nat) : Int :=
  let y1 : Int := if m ≤ 2 then y - 1 else y
  let era : Int := if 0 ≤ y1 then y1 / 400 else (y1 - 399) / 400
  let yoe : Nat := (y1 - era * 400).toNat
  let doy : Nat := (153 * (if 2 < m then m - 3 else m + 9) + 2) / 5 + d - 1
  let doe : Nat := yoe * 365 + yoe / 4 - yoe / 100 + doy
  era * 146097 + (doe : Int) - 719468

/-- Zero-padded two-digit rendering, as `%d` / `%m` produce. -/
def pad2 (n : Nat) : String :=
  if n < 10 then "0" ++ toString n else toString n

/-- `(today - timedelta(days=i)).strftime("%d.%m.%Y")` for day number `z`. -/
def dateKey (z : Int) : String :=
  let c := civilFromDays z
  pad2 c.2.2 ++ "." ++ pad2 c.2.1 ++ "." ++ toString c.1

/-- Result of `fetch_rate`: the returned value (`None` modelled as `none`)
together with the diagnostic lines it printed.  `fetch_rate` never lets an
exception escape (see `fetchBody` and the handlers in `fetch_rate`). -/
structure FetchResult where
  payload : Option RawRatePayload
  printed : List String
deriving DecidableEq, Repr

/-- The body of the `try` block of `fetch_rate` (lines 22-29 of `hw5.py`):
the status dispatch, including the `raise ValueError(...)` on other
statuses.  Errors are returned as `.error` to be dispatched by the
handlers. -/
def fetchBody (o : HttpOutcome) (date : String) :
    Except PyError (Option RawRatePayload × List String) :=
  match o with
  | .clientError m => .error (.clientError m)
  | .otherFailure m => .error (.otherError m)
  | .response status jsonBody bodyText =>
    if status = 200 then .ok (some jsonBody, [])
    else if status = 404 then .ok (none, ["No data available for " ++ date ++ "."])
    else .error (.valueError
      ("API request failed with status code " ++ toString status ++ ": " ++ bodyText))

/-- `CurrencyRateFetcher.fetch_rate(date)` (lines 19-35): runs the `try`
body against the outcome the oracle gives for `date`, then applies the two
handlers: `except aiohttp.ClientError` prints the network-error line and
returns `None`; `except Exception` (which also catches the `ValueError`
raised on a non-200/404 status, since that `raise` sits inside the `try`)
prints the unexpected-error line and returns `None`. -/
def fetch_rate (oracle : String → HttpOutcome) (date : String) : FetchResult :=
  match fetchBody (oracle date) date with
  | .ok (p, lines) => ⟨p, lines⟩
  | .error (.clientError m) =>
    ⟨none, ["Network error while fetching data for " ++ date ++ ": " ++ m]⟩
  | .error e => ⟨none, ["Unexpected error for " ++ date ++ ": " ++ e.msg]⟩

/-- One step of the loop body of `_extract_rates` (lines 61-66): record the
sale/purchase pair under the currency code when it is EUR or USD. -/
def extractStep (acc : CurrencyMap) (r : RateRecord) : CurrencyMap :=
  if r.currency = "EUR" ∨ r.currency = "USD" then
    dictSet acc r.currency ⟨r.saleRate, r.purchaseRate⟩
  else acc

/-- The inner dict `result[date]` built by `_extract_rates`. -/
def extractInner (records : List RateRecord) : CurrencyMap :=
  records.foldl extractStep []

/-- `ExchangeRateService._extract_rates(data, date)` (lines 58-67): returns
`{date: inner}` when the inner dict is non-empty, else `None`. -/
def extract_rates (data : RawRatePayload) (date : String) : Option DailyRates :=
  let inner := extractInner data.exchangeRate
  if inner = [] then none else some (date, inner)

/-- Aggregate state of the fetch loop of `get_rates`: accumulated result
list, the dates fetched (in call order), and everything printed. -/
structure LoopOut where
  rates : List DailyRates
  calls : List String
  printed : List String
deriving Repr

/-- The `for i in range(days)` loop of `get_rates` (lines 48-54), over the
list of indices: fetch each date sequentially, extract, and append the entry
when fetch returned data (`if data:`) and extraction was non-empty. -/
def ratesLoop (oracle : String → HttpOutcome) (today : Int) : List Nat → LoopOut
  | [] => ⟨[], [], []⟩
  | i :: rest =>
    let date := dateKey (today - (i : Int))
    let fr := fetch_rate oracle date
    let tail := ratesLoop oracle today rest
    match fr.payload with
    | none => ⟨tail.rates, date :: tail.calls, fr.printed ++ tail.printed⟩
    | some d =>
      match extract_rates d date with
      | none => ⟨tail.rates, date :: tail.calls, fr.printed ++ tail.printed⟩
      | some dr => ⟨dr :: tail.rates, date :: tail.calls, fr.printed ++ tail.printed⟩

/-- Result of a `get_rates` run: the returned value or raised exception,
the dates fetched, and the diagnostics printed. -/
structure RunOut where
  result : Except PyError (List DailyRates)
  calls : List String
  printed : List String

/-- `ExchangeRateService.get_rates(days)` (lines 41-56): validates
`1 <= days <= 10` (raising `ValueError` before any fetch otherwise), then
runs the sequential per-day loop with dates `today - i` for `i in
range(days)`. -/
def get_rates (oracle : String → HttpOutcome) (today : Int) (days : Int) : RunOut :=
  if days < 1 ∨ 10 < days then
    ⟨.error (.valueError "Days parameter must be between 1 and 10."), [], []⟩
  else
    let lo := ratesLoop oracle today (List.range days.toNat)
    ⟨.ok lo.rates, lo.calls, lo.printed⟩

/-- Accumulator for Python `int(s)` digit parsing: digits with single
underscores allowed between digits. `lastDigit` tracks whether the previous
character was a digit (an underscore must be surrounded by digits). -/
def parseDigitsAux : List Char → Nat → Bool → Option Nat
  | [], acc, lastDigit => if lastDigit then some acc else none
  | c :: rest, acc, lastDigit =>
    if c.isDigit then parseDigitsAux rest (acc * 10 + (c.toNat - 48)) true
    else if c = '_' ∧ lastDigit then parseDigitsAux rest acc false
    else none

/-- Model of Python `int(s)` on a decimal string: strip surrounding
whitespace, optional sign, then digits (underscores allowed between
digits); `none` models the `ValueError` it raises otherwise. -/
def pyInt (s : String) : Option Int :=
  let cs := ((s.toList.dropWhile Char.isWhitespace).reverse.dropWhile
    Char.isWhitespace).reverse
  match cs with
  | '+' :: rest => (parseDigitsAux rest 0 false).map (fun n => (n : Int))
  | '-' :: rest => (parseDigitsAux rest 0 false).map (fun n => -(n : Int))
  | rest => (parseDigitsAux rest 0 false).map (fun n => (n : Int))

/-- One line of program output: a plain text line, or the literal structure
dump `print(rates)` of the success path. -/
inductive OutLine where
  | text (s : String)
  | dump (rates : List DailyRates)
deriving DecidableEq, Repr

/-- Observable behavior of a `main` run: lines printed, dates fetched. -/
structure MainOut where
  printed : List OutLine
  calls : List String
deriving DecidableEq, Repr

/-- `main()` (lines 69-90): argument-count check, `int` parse, range
re-check, then the service run with `except ValueError` printing the
message.  `main` always returns normally (every error path prints and
returns). -/
def main (argv : List String) (oracle : String → HttpOutcome) (today : Int) : MainOut :=
  match argv with
  | [_prog, arg] =>
    (match pyInt arg with
     | none => ⟨[.text "<days> must be an integer."], []⟩
     | some days =>
       if days < 1 ∨ 10 < days then
         ⟨[.text "Please provide a number of days between 1 and 10."], []⟩
       else
         let r := get_rates oracle today days
         match r.result with
         | .ok rates => ⟨r.printed.map .text ++ [.dump rates], r.calls⟩
         | .error e => ⟨r.printed.map .text ++ [.text e.msg], r.calls⟩)
  | _ => ⟨[.text "Usage: py main.py <days>"], []⟩

/-! Concrete fixtures: the payload of the worked example in the spec
(section 8), day numbers for the dates it uses, and oracles describing
concrete network scenarios. -/

/-- The example payload: USD 38.5/38.0, EUR 42.0/41.3, PLN with only a
sale rate. -/
def payload4 : RawRatePayload :=
  ⟨[⟨"USD", some 38.5, some 38.0⟩, ⟨"EUR", some 42.0, some 41.3⟩,
    ⟨"PLN", some 9.0, none⟩]⟩

/-- The currency dict `_extract_rates` builds from `payload4`. -/
def extracted4 : CurrencyMap :=
  [("USD", ⟨some 38.5, some 38.0⟩), ("EUR", ⟨some 42.0, some 41.3⟩)]

/-- A payload with no EUR or USD record at all. -/
def plnPayload : RawRatePayload := ⟨[⟨"PLN", some 9.0, none⟩]⟩

/-- Day number of 2024-01-15, the "today" of the worked example. -/
def today15 : Int := daysFromCivil 2024 1 15

/-- Network scenario: every request succeeds with the example payload. -/
def oracleAny : String → HttpOutcome := fun _ => .response 200 payload4 ""

/-- Network scenario: the request for 15.01.2024 gets an HTTP 500 with
body "Server boom"; every other request succeeds. -/
def oracle500 : String → HttpOutcome := fun d =>
  if d = "15.01.2024" then .response 500 payload4 "Server boom"
  else .response 200 payload4 ""

/-- Network scenario: the request for 13.01.2024 hits a transport error
(`aiohttp.ClientError`); every other request succeeds. -/
def oracleNet : String → HttpOutcome := fun d =>
  if d = "13.01.2024" then .clientError "Cannot connect to host"
  else .response 200 payload4 ""

/-- Network scenario: the request for 15.01.2024 gets an HTTP 404; every
other request succeeds. -/
def oracle404 : String → HttpOutcome := fun d =>
  if d = "15.01.2024" then .response 404 payload4 ""
  else .response 200 payload4 ""

/-- Network scenario: the request for 14.01.2024 returns a payload with
no EUR/USD records; every other request succeeds. -/
def oraclePln : String → HttpOutcome := fun d =>
  if d = "14.01.2024" then .response 200 plnPayload ""
  else .response 200 payload4 ""

/-! Helper lemmas about the embedded operations. -/

/-- Sanity check: `dateKey` renders the example date as the spec shows. -/
theorem dateKey_today15 : dateKey today15 = "15.01.2024" := by decide

/-- A 200 response makes `fetch_rate` return the parsed body, printing
nothing. -/
theorem fetch_rate_200 {oracle : String → HttpOutcome} {D : String}
    {p : RawRatePayload} {body : String} (h : oracle D = .response 200 p body) :
    fetch_rate oracle D = ⟨some p, []⟩ := by
  simp [fetch_rate, fetchBody, h]

/-- A 404 response makes `fetch_rate` return `None` after printing the
no-data line. -/
theorem fetch_rate_404 {oracle : String → HttpOutcome} {D : String}
    {p : RawRatePayload} {body : String} (h : oracle D = .response 404 p body) :
    fetch_rate oracle D = ⟨none, ["No data available for " ++ D ++ "."]⟩ := by
  simp [fetch_rate, fetchBody, h]

/-- The `calls` trace of the fetch loop: one call per index, in order,
for the date `today - i`. -/
theorem ratesLoop_calls (oracle : String → HttpOutcome) (today : Int) :
    ∀ l : List Nat, (ratesLoop oracle today l).calls =
      l.map (fun i : Nat => dateKey (today - (i : Int))) := by
  intro l
  induction l with
  | nil => rfl
  | cons i rest ih =>
    simp only [ratesLoop, List.map_cons]
    split
    · simpa using ih
    · split <;> simpa using ih

/-- Reading back the key just assigned. -/
theorem dictLookup_dictSet_self (k : String) (v : RatePair) :
    ∀ m : CurrencyMap, dictLookup k (dictSet m k v) = some v := by
  intro m
  induction m with
  | nil => simp [dictSet, dictLookup]
  | cons kv rest ih =>
    obtain ⟨k0, v0⟩ := kv
    by_cases h : k0 = k
    · simp [dictSet, dictLookup, h]
    · simp [dictSet, dictLookup, h, ih]

/-- Assignment to a different key leaves a lookup unchanged. -/
theorem dictLookup_dictSet_ne (k k1 : String) (v : RatePair) (hne : k1 ≠ k) :
    ∀ m : CurrencyMap, dictLookup k (dictSet m k1 v) = dictLookup k m := by
  intro m
  induction m with
  | nil => simp [dictSet, dictLookup, hne]
  | cons kv rest ih =>
    obtain ⟨k0, v0⟩ := kv
    by_cases h : k0 = k1
    · subst h
      simp [dictSet, dictLookup, hne]
    · simp [dictSet, dictLookup, h, ih]

/-- Every pair of a dict after an assignment was already there or is the
assigned pair. -/
theorem mem_dictSet {x : String × RatePair} (k : String) (v : RatePair) :
    ∀ m : CurrencyMap, x ∈ dictSet m k v → x ∈ m ∨ x = (k, v) := by
  intro m
  induction m with
  | nil => simp [dictSet]
  | cons kv rest ih =>
    obtain ⟨k0, v0⟩ := kv
    by_cases h : k0 = k
    · simp only [dictSet, if_pos h, List.mem_cons]
      rintro (hx | hx)
      · exact Or.inr hx
      · exact Or.inl (Or.inr hx)
    · simp only [dictSet, if_neg h, List.mem_cons]
      rintro (hx | hx)
      · exact Or.inl (Or.inl hx)
      · rcases ih hx with h1 | h1
        · exact Or.inl (Or.inr h1)
        · exact Or.inr h1

/-- Every pair produced by the extraction fold was in the accumulator or
is keyed by EUR or USD. -/
theorem mem_foldl_extractStep {x : String × RatePair} :
    ∀ (records : List RateRecord) (acc : CurrencyMap),
      x ∈ records.foldl extractStep acc →
      x ∈ acc ∨ x.1 = "EUR" ∨ x.1 = "USD" := by
  intro records
  induction records with
  | nil => intro acc h; exact Or.inl h
  | cons r rest ih =>
    intro acc h
    rcases ih (extractStep acc r) h with h1 | h1
    · unfold extractStep at h1
      split at h1
      · next hcur =>
        rcases mem_dictSet _ _ _ h1 with h2 | h2
        · exact Or.inl h2
        · subst h2; exact Or.inr hcur
      · exact Or.inl h1
    · exact Or.inr h1

/-- Every key of the dict built by `_extract_rates` is EUR or USD. -/
theorem mem_extractInner {x : String × RatePair} {records : List RateRecord}
    (h : x ∈ extractInner records) : x.1 = "EUR" ∨ x.1 = "USD" := by
  rcases mem_foldl_extractStep records [] h with h1 | h1
  · cases h1
  · exact h1

/-- A record list with no EUR or USD record leaves the accumulator
untouched. -/
theorem foldl_extractStep_no_match :
    ∀ (records : List RateRecord) (acc : CurrencyMap),
      (∀ r ∈ records, r.currency ≠ "EUR" ∧ r.currency ≠ "USD") →
      records.foldl extractStep acc = acc := by
  intro records
  induction records with
  | nil => intro acc _; rfl
  | cons r rest ih =>
    intro acc h
    have hr := h r (List.mem_cons_self r rest)
    have hstep : extractStep acc r = acc := by
      unfold extractStep
      rw [if_neg]
      rintro (h1 | h1)
      · exact hr.1 h1
      · exact hr.2 h1
    simp only [List.foldl_cons, hstep]
    exact ih acc (fun r1 hr1 => h r1 (List.mem_cons_of_mem r hr1))

/-- On a successful extraction the entry is keyed by the requested date,
its dict is the extraction fold over the records, and it is non-empty. -/
theorem extract_rates_eq_some {d : RawRatePayload} {date : String}
    {e : DailyRates} (h : extract_rates d date = some e) :
    e.1 = date ∧ e.2 = extractInner d.exchangeRate ∧ e.2 ≠ [] := by
  unfold extract_rates at h
  by_cases hinner : extractInner d.exchangeRate = []
  · rw [if_pos hinner] at h
    cases h
  · rw [if_neg hinner] at h
    cases h
    exact ⟨rfl, rfl, hinner⟩

/-- A payload with no EUR or USD record extracts to nothing. -/
theorem extract_rates_no_match {records : List RateRecord} {date : String}
    (h : ∀ r ∈ records, r.currency ≠ "EUR" ∧ r.currency ≠ "USD") :
    extract_rates ⟨records⟩ date = none := by
  unfold extract_rates extractInner
  rw [foldl_extractStep_no_match records [] h]
  rfl

/-- Looking up EUR or USD in the extraction fold finds the pair of the
last record with that currency, or falls back to the accumulator. -/
theorem dictLookup_foldl_extractStep (c : String)
    (hc : c = "EUR" ∨ c = "USD") :
    ∀ (records : List RateRecord) (acc : CurrencyMap),
      dictLookup c (records.foldl extractStep acc) =
        match (records.filter (fun x => x.currency == c)).getLast? with
        | some r => some ⟨r.saleRate, r.purchaseRate⟩
        | none => dictLookup c acc := by
  intro records
  induction records with
  | nil => intro acc; rfl
  | cons r rest ih =>
    intro acc
    by_cases hrc : r.currency = c
    · have hcond : r.currency = "EUR" ∨ r.currency = "USD" := by
        rw [hrc]; exact hc
      have hstep : extractStep acc r =
          dictSet acc r.currency ⟨r.saleRate, r.purchaseRate⟩ := by
        unfold extractStep; rw [if_pos hcond]
      have hfilter : (r :: rest).filter (fun x => x.currency == c) =
          r :: rest.filter (fun x => x.currency == c) := by
        simp [List.filter_cons, hrc]
      rw [List.foldl_cons, hstep, ih, hfilter]
      cases hfl : rest.filter (fun x => x.currency == c) with
      | nil =>
        simp only [hfl, List.getLast?_singleton]
        rw [hrc]
        exact dictLookup_dictSet_self c _ acc
      | cons a l =>
        simp only [hfl, List.getLast?_cons_cons]
        cases hgl : (a :: l).getLast? with
        | none => simp [List.getLast?_eq_none_iff] at hgl
        | some x => rfl
    · have hfilter : (r :: rest).filter (fun x => x.currency == c) =
          rest.filter (fun x => x.currency == c) := by
        simp [List.filter_cons, hrc]
      rw [List.foldl_cons, ih, hfilter]
      by_cases hcond : r.currency = "EUR" ∨ r.currency = "USD"
      · have hstep : extractStep acc r =
            dictSet acc r.currency ⟨r.saleRate, r.purchaseRate⟩ := by
          unfold extractStep; rw [if_pos hcond]
        cases hgl : (rest.filter (fun x => x.currency == c)).getLast? with
        | none =>
          simp only [hgl]
          rw [hstep]
          exact dictLookup_dictSet_ne c r.currency _ hrc acc
        | some x => simp only [hgl]
      · have hstep : extractStep acc r = acc := by
          unfold extractStep; rw [if_neg hcond]
        rw [hstep]

/-- Every entry of the loop result comes from some index in the list: its
date key is that of `today - i`, the fetch for that date returned a
payload, and extraction of that payload produced exactly this entry. -/
theorem mem_ratesLoop_rates (oracle : String → HttpOutcome) (today : Int) :
    ∀ (l : List Nat) (entry : DailyRates),
      entry ∈ (ratesLoop oracle today l).rates →
      ∃ i ∈ l, entry.1 = dateKey (today - (i : Int)) ∧
        ∃ p, (fetch_rate oracle (dateKey (today - (i : Int)))).payload = some p ∧
          extract_rates p (dateKey (today - (i : Int))) = some entry := by
  intro l
  induction l with
  | nil => intro entry h; cases h
  | cons i rest ih =>
    intro entry h
    cases hfp : (fetch_rate oracle (dateKey (today - (i : Int)))).payload with
    | none =>
      have hloop : (ratesLoop oracle today (i :: rest)).rates =
          (ratesLoop oracle today rest).rates := by
        simp only [ratesLoop]
        rw [hfp]
      rw [hloop] at h
      obtain ⟨j, hj, hrest⟩ := ih entry h
      exact ⟨j, List.mem_cons_of_mem i hj, hrest⟩
    | some d =>
      cases hex : extract_rates d (dateKey (today - (i : Int))) with
      | none =>
        have hloop : (ratesLoop oracle today (i :: rest)).rates =
            (ratesLoop oracle today rest).rates := by
          simp only [ratesLoop, hfp, hex]
        rw [hloop] at h
        obtain ⟨j, hj, hrest⟩ := ih entry h
        exact ⟨j, List.mem_cons_of_mem i hj, hrest⟩
      | some dr =>
        have hloop : (ratesLoop oracle today (i :: rest)).rates =
            dr :: (ratesLoop oracle today rest).rates := by
          simp only [ratesLoop, hfp, hex]
        rw [hloop] at h
        rcases List.mem_cons.mp h with h1 | h1
        · subst h1
          exact ⟨i, List.mem_cons_self i rest,
            (extract_rates_eq_some hex).1, d, hfp, hex⟩
        · obtain ⟨j, hj, hrest⟩ := ih entry h1
          exact ⟨j, List.mem_cons_of_mem i hj, hrest⟩

/-- For valid `days` the run returns normally with the loop output. -/
theorem get_rates_ok {oracle : String → HttpOutcome} {today days : Int}
    (h1 : 1 ≤ days) (h2 : days ≤ 10) :
    get_rates oracle today days =
      ⟨.ok (ratesLoop oracle today (List.range days.toNat)).rates,
       (ratesLoop oracle today (List.range days.toNat)).calls,
       (ratesLoop oracle today (List.range days.toNat)).printed⟩ := by
  unfold get_rates
  rw [if_neg (by omega)]

/-! The claims. -/

/-- Claim C1, counterexample: with an HTTP 500 for 15.01.2024, the error
does not propagate out of `fetch_rate` — the fetch returns `None` after
printing the unexpected-error line — and a two-day run does not terminate
abnormally: it returns normally with the entry of the remaining day. -/
theorem c1_counterexample :
    fetch_rate oracle500 "15.01.2024" =
      ⟨none, ["Unexpected error for 15.01.2024: API request failed with status code 500: Server boom"]⟩
    ∧ (get_rates oracle500 today15 2).result = .ok [("14.01.2024", extracted4)]
    ∧ (get_rates oracle500 today15 2).calls = ["15.01.2024", "14.01.2024"] := by
  refine ⟨rfl, rfl, rfl⟩

/-- Claim C1, amended: on any HTTP status other than 200 and 404,
`fetch_rate` raises the `ValueError` carrying the status code and response
body text, but the `raise` sits inside its own `try` block, so the generic
`except Exception` handler catches it: the fetch prints the
unexpected-error line (containing the status and body) and returns `None`,
and the run continues with the remaining days. -/
theorem c1_api_error_swallowed (oracle : String → HttpOutcome)
    (date : String) (status : Nat) (j : RawRatePayload) (body : String)
    (h : oracle date = .response status j body)
    (h200 : status ≠ 200) (h404 : status ≠ 404) :
    fetch_rate oracle date =
      ⟨none, ["Unexpected error for " ++ date ++ ": " ++
        ("API request failed with status code " ++ toString status ++ ": " ++ body)]⟩ := by
  simp [fetch_rate, fetchBody, h, h200, h404, PyError.msg]

/-- Claim C1, witness for the amended theorem at status 500. -/
theorem c1_witness :
    fetch_rate oracle500 "15.01.2024" =
      ⟨none, ["Unexpected error for " ++ "15.01.2024" ++ ": " ++
        ("API request failed with status code " ++ toString 500 ++ ": " ++ "Server boom")]⟩ :=
  c1_api_error_swallowed oracle500 "15.01.2024" 500 payload4 "Server boom"
    rfl (by decide) (by decide)

/-- Claim C2: for days in [1,10], `get_rates` issues exactly one fetch per
index `i` of `0 .. days-1`, in order, for the date `today - i` rendered as
DD.MM.YYYY; the trace has length `days` (hence at most `days` calls), and
the fetched day numbers are strictly descending from today. -/
theorem c2_fetch_trace (oracle : String → HttpOutcome) (today : Int)
    (days : Int) (h1 : 1 ≤ days) (h2 : days ≤ 10) :
    (get_rates oracle today days).calls =
      (List.range days.toNat).map (fun i : Nat => dateKey (today - (i : Int)))
    ∧ (get_rates oracle today days).calls.length = days.toNat
    ∧ List.Pairwise (fun a b => b < a)
        ((List.range days.toNat).map (fun i : Nat => today - (i : Int))) := by
  have hcond : ¬(days < 1 ∨ 10 < days) := by omega
  have hcalls : (get_rates oracle today days).calls =
      (List.range days.toNat).map (fun i : Nat => dateKey (today - (i : Int))) := by
    simp only [get_rates, if_neg hcond]
    exact ratesLoop_calls oracle today (List.range days.toNat)
  refine ⟨hcalls, by rw [hcalls, List.length_map, List.length_range], ?_⟩
  refine List.pairwise_map.mpr ?_
  refine List.Pairwise.imp ?_ (List.pairwise_lt_range days.toNat)
  intro a b hab
  omega

/-- Claim C2, witness at three days from the example date. -/
theorem c2_witness :
    (get_rates oracleAny today15 3).calls =
      (List.range (3 : Int).toNat).map (fun i : Nat => dateKey (today15 - (i : Int)))
    ∧ (get_rates oracleAny today15 3).calls.length = (3 : Int).toNat
    ∧ List.Pairwise (fun a b => b < a)
        ((List.range (3 : Int).toNat).map (fun i : Nat => today15 - (i : Int))) :=
  c2_fetch_trace oracleAny today15 3 (by decide) (by decide)

/-- Claim C3, counterexample: at `days = 0` the service raises the
`ValueError` whose message is "Days parameter must be between 1 and 10.",
not the claimed "days must be between 1 and 10". -/
theorem c3_counterexample :
    (get_rates oracleAny today15 0).result =
      .error (.valueError "Days parameter must be between 1 and 10.")
    ∧ ¬((get_rates oracleAny today15 0).result =
        .error (.valueError "days must be between 1 and 10"))
    ∧ (get_rates oracleAny today15 0).calls = [] := by
  refine ⟨rfl, ?_, rfl⟩
  intro h
  rw [show (get_rates oracleAny today15 0).result =
      .error (.valueError "Days parameter must be between 1 and 10.") from rfl] at h
  simp at h

/-- Claim C3, amended: for every integer `days` outside [1,10],
`get_rates` raises a `ValueError` whose message is "Days parameter must be
between 1 and 10.", before any fetch call is issued and before anything is
printed. -/
theorem c3_validation (oracle : String → HttpOutcome) (today : Int)
    (days : Int) (h : days < 1 ∨ 10 < days) :
    (get_rates oracle today days).result =
      .error (.valueError "Days parameter must be between 1 and 10.")
    ∧ (get_rates oracle today days).calls = []
    ∧ (get_rates oracle today days).printed = [] := by
  simp [get_rates, h]

/-- Claim C3, witness at `days = 11`. -/
theorem c3_witness :
    (get_rates oracleAny today15 11).result =
      .error (.valueError "Days parameter must be between 1 and 10.")
    ∧ (get_rates oracleAny today15 11).calls = []
    ∧ (get_rates oracleAny today15 11).printed = [] :=
  c3_validation oracleAny today15 11 (by decide)

/-- Claim C4: on the worked example (one day, today 2024-01-15, the
USD/EUR/PLN payload) `get_rates` returns exactly one entry, keyed
15.01.2024, with USD sale 38.5 / purchase 38.0 and EUR sale 42.0 /
purchase 41.3, PLN excluded. -/
theorem c4_worked_example :
    (get_rates (fun _ => .response 200 payload4 "") today15 1).result =
      .ok [("15.01.2024",
        [("USD", ⟨some 38.5, some 38.0⟩), ("EUR", ⟨some 42.0, some 41.3⟩)])] := by
  rfl

/-- Claim C8: a two-element argument vector whose second element does not
parse as a Python integer makes `main` print exactly the line
"<days> must be an integer.", issue no fetch call, and return normally. -/
theorem c8_non_integer_arg (prog arg : String) (oracle : String → HttpOutcome)
    (today : Int) (h : pyInt arg = none) :
    main [prog, arg] oracle today = ⟨[.text "<days> must be an integer."], []⟩ := by
  simp [main, h]

/-- Claim C8, witness at the argument "abc". -/
theorem c8_witness :
    main ["hw5.py", "abc"] oracleAny today15 =
      ⟨[.text "<days> must be an integer."], []⟩ :=
  c8_non_integer_arg "hw5.py" "abc" oracleAny today15 (by decide)

/-- Claim C5: extraction only ever records EUR and USD keys; a payload
with no EUR or USD record extracts to nothing; and a day whose 200
response carries such a payload gets no entry in the result. -/
theorem c5_filter_currencies :
    (∀ (data : RawRatePayload) (date : String) (e : DailyRates),
      extract_rates data date = some e →
      ∀ kv ∈ e.2, kv.1 = "EUR" ∨ kv.1 = "USD")
    ∧ (∀ (data : RawRatePayload) (date : String),
      (∀ r ∈ data.exchangeRate, r.currency ≠ "EUR" ∧ r.currency ≠ "USD") →
      extract_rates data date = none)
    ∧ ∀ (oracle : String → HttpOutcome) (today days : Int) (D : String)
        (p : RawRatePayload) (body : String),
        1 ≤ days → days ≤ 10 →
        oracle D = .response 200 p body →
        (∀ r ∈ p.exchangeRate, r.currency ≠ "EUR" ∧ r.currency ≠ "USD") →
        ∃ rates, (get_rates oracle today days).result = .ok rates ∧
          ∀ e ∈ rates, e.1 ≠ D := by
  refine ⟨?_, ?_, ?_⟩
  · intro data date e hex kv hkv
    obtain ⟨-, hsnd, -⟩ := extract_rates_eq_some hex
    rw [hsnd] at hkv
    exact mem_extractInner hkv
  · intro data date h
    unfold extract_rates extractInner
    rw [foldl_extractStep_no_match data.exchangeRate [] h]
    rfl
  · intro oracle today days D p body h1 h2 horacle hrec
    refine ⟨(ratesLoop oracle today (List.range days.toNat)).rates,
      by rw [get_rates_ok h1 h2], ?_⟩
    intro e he h1e
    obtain ⟨i, hi, hfst, q, hq, hex⟩ :=
      mem_ratesLoop_rates oracle today (List.range days.toNat) e he
    rw [hfst] at h1e
    rw [h1e] at hq hex
    rw [fetch_rate_200 horacle] at hq
    cases hq
    have hnone : extract_rates p D = none := by
      unfold extract_rates extractInner
      rw [foldl_extractStep_no_match p.exchangeRate [] hrec]
      rfl
    rw [hnone] at hex
    cases hex

/-- Claim C5, witness: keys of the worked-example extraction; the PLN-only
payload extracting to nothing; and a two-day run in which the day
14.01.2024 answers with the PLN-only payload and is dropped. -/
theorem c5_witness :
    (∀ kv ∈ (("15.01.2024", extracted4) : DailyRates).2,
      kv.1 = "EUR" ∨ kv.1 = "USD")
    ∧ extract_rates plnPayload "14.01.2024" = none
    ∧ ∃ rates, (get_rates oraclePln today15 2).result = .ok rates ∧
        ∀ e ∈ rates, e.1 ≠ "14.01.2024" :=
  ⟨c5_filter_currencies.1 payload4 "15.01.2024" ("15.01.2024", extracted4) rfl,
   c5_filter_currencies.2.1 plnPayload "14.01.2024" (by decide),
   c5_filter_currencies.2.2 oraclePln today15 2 "14.01.2024" plnPayload ""
     (by decide) (by decide) rfl (by decide)⟩

/-- Claim C6: when the filtered records contain exactly one EUR record,
its sale and purchase rates are taken verbatim, so a missing purchase rate
yields a `None` purchase with the sale populated, and symmetrically. -/
theorem c6_missing_field_null (records : List RateRecord) (r : RateRecord)
    (h : records.filter (fun x => x.currency == "EUR") = [r]) :
    (r.purchaseRate = none →
      dictLookup "EUR" (extractInner records) = some ⟨r.saleRate, none⟩)
    ∧ (r.saleRate = none →
      dictLookup "EUR" (extractInner records) = some ⟨none, r.purchaseRate⟩) := by
  have key : dictLookup "EUR" (extractInner records) =
      some ⟨r.saleRate, r.purchaseRate⟩ := by
    have h2 := dictLookup_foldl_extractStep "EUR" (Or.inl rfl) records []
    rw [h] at h2
    exact h2
  constructor
  · intro hp
    rw [key, hp]
  · intro hs
    rw [key, hs]

/-- Claim C6, witness: an EUR record with no purchase rate next to a PLN
record extracts to sale 42.0 and purchase `None`. -/
theorem c6_witness :
    dictLookup "EUR"
      (extractInner [⟨"EUR", some 42, none⟩, ⟨"PLN", some 9, none⟩]) =
      some ⟨some 42, none⟩ :=
  (c6_missing_field_null [⟨"EUR", some 42, none⟩, ⟨"PLN", some 9, none⟩]
    ⟨"EUR", some 42, none⟩ (by decide)).1 rfl

/-- Claim C7: a 404 response for a date yields no entry for that date and
the run still returns normally; and with a transport failure on 13.01.2024
among five days starting 15.01.2024, the other four days all appear. -/
theorem c7_failure_skips_day :
    (∀ (oracle : String → HttpOutcome) (today days : Int) (D : String)
        (j : RawRatePayload) (body : String),
        1 ≤ days → days ≤ 10 → oracle D = .response 404 j body →
        ∃ rates, (get_rates oracle today days).result = .ok rates ∧
          ∀ e ∈ rates, e.1 ≠ D)
    ∧ (get_rates oracleNet today15 5).result =
        .ok [("15.01.2024", extracted4), ("14.01.2024", extracted4),
             ("12.01.2024", extracted4), ("11.01.2024", extracted4)]
    ∧ (get_rates oracleNet today15 5).printed =
        ["Network error while fetching data for 13.01.2024: Cannot connect to host"] := by
  refine ⟨?_, rfl, rfl⟩
  intro oracle today days D j body h1 h2 horacle
  refine ⟨(ratesLoop oracle today (List.range days.toNat)).rates,
    by rw [get_rates_ok h1 h2], ?_⟩
  intro e he h1e
  obtain ⟨i, hi, hfst, q, hq, hex⟩ :=
    mem_ratesLoop_rates oracle today (List.range days.toNat) e he
  rw [hfst] at h1e
  rw [h1e] at hq
  rw [fetch_rate_404 horacle] at hq
  cases hq

/-- Claim C7, witness: a 404 for 15.01.2024 in a two-day run leaves no
entry for that date, and the run returns normally. -/
theorem c7_witness :
    ∃ rates, (get_rates oracle404 today15 2).result = .ok rates ∧
      ∀ e ∈ rates, e.1 ≠ "15.01.2024" :=
  c7_failure_skips_day.1 oracle404 today15 2 "15.01.2024" payload4 ""
    (by decide) (by decide) rfl

/-- Claim C9: when several records share a currency code in {EUR, USD},
the extracted entry for that code is the sale/purchase pair of the last
such record in payload order: each assignment overwrites the previous. -/
theorem c9_last_record_wins (records : List RateRecord) (c : String)
    (r : RateRecord) (hc : c = "EUR" ∨ c = "USD")
    (h : (records.filter (fun x => x.currency == c)).getLast? = some r) :
    dictLookup c (extractInner records) = some ⟨r.saleRate, r.purchaseRate⟩ := by
  have key := dictLookup_foldl_extractStep c hc records []
  rw [h] at key
  exact key

/-- Claim C9, witness: two EUR records; the later one (sale 42, missing
purchase) is what the extraction reports. -/
theorem c9_witness :
    dictLookup "EUR"
      (extractInner [⟨"EUR", some 40, some 39⟩, ⟨"EUR", some 42, none⟩]) =
      some ⟨some 42, none⟩ :=
  c9_last_record_wins [⟨"EUR", some 40, some 39⟩, ⟨"EUR", some 42, none⟩]
    "EUR" ⟨"EUR", some 42, none⟩ (Or.inl rfl) (by decide)

/-- Claim C10: for valid `days` the run returns normally and every entry
of the result is keyed by the date of one of the fetched days, carries a
non-empty currency dict, and every key of that dict is EUR or USD (each
value being a sale/purchase pair by construction). -/
theorem c10_shape_invariant (oracle : String → HttpOutcome)
    (today days : Int) (h1 : 1 ≤ days) (h2 : days ≤ 10) :
    ∃ rates, (get_rates oracle today days).result = .ok rates ∧
      ∀ e ∈ rates,
        (∃ i, i < days.toNat ∧ e.1 = dateKey (today - (i : Int)))
        ∧ e.2 ≠ []
        ∧ ∀ kv ∈ e.2, kv.1 = "EUR" ∨ kv.1 = "USD" := by
  refine ⟨(ratesLoop oracle today (List.range days.toNat)).rates,
    by rw [get_rates_ok h1 h2], ?_⟩
  intro e he
  obtain ⟨i, hi, hfst, q, hq, hex⟩ :=
    mem_ratesLoop_rates oracle today (List.range days.toNat) e he
  obtain ⟨-, hsnd, hne⟩ := extract_rates_eq_some hex
  refine ⟨⟨i, List.mem_range.mp hi, hfst⟩, hne, ?_⟩
  intro kv hkv
  rw [hsnd] at hkv
  exact mem_extractInner hkv

/-- Claim C10, witness: the shape invariant at the worked example. -/
theorem c10_witness :
    ∃ rates, (get_rates oracleAny today15 1).result = .ok rates ∧
      ∀ e ∈ rates,
        (∃ i, i < (1 : Int).toNat ∧ e.1 = dateKey (today15 - (i : Int)))
        ∧ e.2 ≠ []
        ∧ ∀ kv ∈ e.2, kv.1 = "EUR" ∨ kv.1 = "USD" :=
  c10_shape_invariant oracleAny today15 1 (by decide) (by decide)

end Hw5
